import Mathlib

/-!
Employee Reporting System — verification of the spec against the source.

Shallow embedding of the Telegram file-custodian bot
(`models/user.go`, `models/file.go`, `db/database.go`, `internal/bot.go`).

Storage is modelled as in-memory lists: the relational user table is a
`List User` keyed by `id`, the document file collection is a `List File`
keyed by `id` (Mongo `_id`).  Storage and transport failures, which in Go
surface as runtime `error` values from external systems, are injected
through explicit oracle records so that the frame properties of the failure
paths can be stated.  Chat output (messages, keyboards, callback
acknowledgements) is modelled as a list of `Out` values in the order the
Go code issues them.
-/

namespace ERS

/-- Go struct `models.User` (`models/user.go`): the relational user row. -/
structure User where
  id        : Int
  username  : String
  firstName : String
  lastName  : String
  phone     : String
  isAdmin   : Bool
deriving DecidableEq, Repr

/-- Go struct `models.File` (`models/file.go`): a document-store file row.
Bytes are modelled as `List Nat`; the creation timestamp as an `Int` tick. -/
structure File where
  id        : Int
  userID    : Int
  fileName  : String
  fileType  : String
  fileData  : List Nat
  createdAt : Int
deriving DecidableEq, Repr

/-- Errors returned by the store layer (`db/database.go`):
`duplicateFile` is the distinguished `errors.New ("file already exists")`;
`storage` stands for any other driver error. -/
inductive DBError where
  | duplicateFile
  | storage
deriving DecidableEq, Repr

/-! ## Store operations (`db/database.go`) -/

/-- Go method `DB.GetUser`: `SELECT ... FROM users WHERE id = ?`; `nil` on no row. -/
def getUser (us : List User) (id : Int) : Option User :=
  us.find? (fun u => u.id == id)

/-- Go method `DB.SaveUser`: `INSERT ... ON CONFLICT(id) DO UPDATE` — an upsert by
primary key: the existing row with the same id is overwritten wholesale
(including `phone`), otherwise the row is appended. -/
def saveUser (us : List User) (u : User) : List User :=
  if us.any (fun v => v.id == u.id) then
    us.map (fun v => if v.id == u.id then u else v)
  else
    us ++ [u]

/-- Go method `DB.UpdateUserPhone`: `UPDATE users SET phone = ? WHERE id = ?`. -/
def updateUserPhone (us : List User) (id : Int) (phone : String) : List User :=
  us.map (fun v => if v.id == id then { v with phone := phone } else v)

/-- Go method `DB.GetFile`: Mongo `FindOne` on `_id`; `nil` on no document. -/
def getFile (fs : List File) (id : Int) : Option File :=
  fs.find? (fun f => f.id == id)

/-- Go method `DB.GetUserFiles`: Mongo `Find` on `user_id`. -/
def getUserFiles (fs : List File) (userID : Int) : List File :=
  fs.filter (fun f => f.userID == userID)

/-- Go method `DB.GetAllFiles`: Mongo `Find` with the empty filter. -/
def getAllFiles (fs : List File) : List File := fs

/-- The duplicate check at the head of `DB.SaveFile`: `FindOne` on the
dedup key `(user_id, file_name, file_type)`. -/
def hasDuplicate (fs : List File) (f : File) : Bool :=
  fs.any (fun g =>
    g.userID == f.userID && g.fileName == f.fileName && g.fileType == f.fileType)

/-- The id of the document found by `FindOne` sorted by `_id` descending —
the maximal id in the collection — or `0` (the Go zero value of
`lastFile.ID`) when the collection is empty. -/
def lastFileId (fs : List File) : Int :=
  match fs.map (fun f => f.id) with
  | [] => 0
  | i :: is => is.foldl max i

/-- Go method `DB.SaveFile`: duplicate check, then `file.ID = lastFile.ID + 1`,
then `InsertOne`.  `dbFail` injects a Mongo driver error (the first
`FindOne` or the insert failing); on any error the collection is
unchanged. -/
def SaveFile (dbFail : Bool) (fs : List File) (f : File) :
    List File × Except DBError Int :=
  if dbFail then (fs, .error .storage)
  else if hasDuplicate fs f then (fs, .error .duplicateFile)
  else
    let newId := lastFileId fs + 1
    (fs ++ [{ f with id := newId }], .ok newId)

/-- Go method `DB.DeleteFile`: Mongo `DeleteOne` on `_id` — removes the first
matching document, nothing when no document matches. -/
def DeleteFile : List File → Int → List File
  | [], _ => []
  | f :: rest, id => if f.id == id then rest else f :: DeleteFile rest id

/-- Modelled from the spec: `DB.DeleteUserFiles` is called from
`handleCallback` (`internal/bot.go` line 241) but its definition is not
among the provided sources; §4.3 of the spec says the "all" confirmation
"deletes every File row owned by the requesting user". -/
def DeleteUserFiles (fs : List File) (userID : Int) : List File :=
  fs.filter (fun f => f.userID != userID)

/-! ## Administrator reconciliation (`DB.UpdateAdminStatuses`) -/

/-- The static `Config.Admins` map, encoded as an association list with
the uniqueness of Go map keys left implicit (the statements below do not
depend on it). -/
abbrev AdminSet := List (String × Bool)

/-- Go method `Config.IsAdmin` (`config/config.go`): map lookup defaulting
to `false`. -/
def cfgIsAdmin (admins : AdminSet) (username : String) : Bool :=
  admins.any (fun p => username == p.1 && p.2)

/-- The transaction's first statement: `UPDATE users SET is_admin = 0`. -/
def clearAdmins (us : List User) : List User :=
  us.map (fun u => { u with isAdmin := false })

/-- One loop iteration:
`UPDATE users SET is_admin = 1 WHERE username = ?`. -/
def setAdminTrue (us : List User) (username : String) : List User :=
  us.map (fun u => if u.username == username then { u with isAdmin := true } else u)

/-- The update loop of `DB.UpdateAdminStatuses`: for each entry with
intent `true`, set the flag of every user with that username. -/
def applyAdminUpdates (us : List User) (admins : AdminSet) : List User :=
  admins.foldl (fun acc p => if p.2 then setAdminTrue acc p.1 else acc) us

/-- Failure oracle for the SQLite transaction in `UpdateAdminStatuses`:
which of `Begin`, the reset `Exec`, a per-username `Exec`, or `Commit`
fails. -/
structure TxOracle where
  beginFails  : Bool
  resetFails  : Bool
  updateFails : String → Bool
  commitFails : Bool

/-- Whether some statement of the transaction fails under the oracle. -/
def txFails (o : TxOracle) (admins : AdminSet) : Bool :=
  o.beginFails || o.resetFails ||
    admins.any (fun p => p.2 && o.updateFails p.1) || o.commitFails

/-- Go method `DB.UpdateAdminStatuses`: inside one transaction, clear every
flag,
then set the flag for each username mapped to `true`; the deferred
`Rollback` means any failure leaves the table untouched.  Returns the
table after the call together with `some` error on failure. -/
def UpdateAdminStatuses (o : TxOracle) (admins : AdminSet) (us : List User) :
    List User × Option DBError :=
  if o.beginFails then (us, some .storage)
  else if o.resetFails then (us, some .storage)
  else if admins.any (fun p => p.2 && o.updateFails p.1) then (us, some .storage)
  else if o.commitFails then (us, some .storage)
  else (applyAdminUpdates (clearAdmins us) admins, none)

/-! ## String helpers used by the handlers (`strings.*`, `strconv`, `fmt.Sscanf`) -/

/-- Value of a digit run (most significant first). -/
def digitsToNat (cs : List Char) : Nat :=
  cs.foldl (fun a c => 10 * a + (c.toNat - 48)) 0

/-- Whether `p` is a leading segment of `s` (character lists). -/
def leadEq : List Char → List Char → Bool
  | [], _ => true
  | _ :: _, [] => false
  | p :: ps, c :: cs => p == c && leadEq ps cs

/-- Go `strings.HasPrefix s pre`. -/
def hasLead (s pre : String) : Bool :=
  leadEq pre.data s.data

/-- Go `strings.TrimPrefix s pre`: drop the leading occurrence of `pre`
if present, otherwise return `s` unchanged. -/
def trimLead (s pre : String) : String :=
  if hasLead s pre then ⟨s.data.drop pre.data.length⟩ else s

/-- Whether `sub` occurs as a contiguous segment of the second list. -/
def occursIn (sub : List Char) : List Char → Bool
  | [] => sub.isEmpty
  | c :: cs => leadEq sub (c :: cs) || occursIn sub cs

/-- Go `strings.Contains s sub`. -/
def goContains (s sub : String) : Bool :=
  occursIn sub.data s.data

/-- Strict signed-decimal parse of a whole string (the syntax accepted by
`strconv.ParseInt(s, 10, 64)`): optional sign, then one or more digits,
nothing else; `none` on a syntax error. -/
def strictParseInt (s : String) : Option Int :=
  let cs := s.data
  let (neg, ds) :=
    match cs with
    | '-' :: rest => (true, rest)
    | '+' :: rest => (false, rest)
    | _ => (false, cs)
  if ds.isEmpty || !ds.all Char.isDigit then none
  else some (if neg then -(digitsToNat ds : Int) else (digitsToNat ds : Int))

/-- Go `strconv.ParseInt(s, 10, 64)` as (value, ok): a syntax error yields
`(0, false)`, a range error yields the clamped 64-bit bound and `false`
— in both cases the Go caller that discards the error proceeds with the
returned value. -/
def goParseInt64 (s : String) : Int × Bool :=
  match strictParseInt s with
  | none => (0, false)
  | some v =>
    if v > 2 ^ 63 - 1 then (2 ^ 63 - 1, false)
    else if v < -(2 ^ 63) then (-(2 ^ 63), false)
    else (v, true)

/-- Go `fmt.Sscanf(args, "%d", &fileID)`: skip spaces, optional sign, read
a digit run, ignore any trailing input; error iff no digits were read. -/
def sscanfInt (s : String) : Option Int :=
  let cs := s.data.dropWhile (fun c => c == ' ')
  let (neg, rest) :=
    match cs with
    | '-' :: r => (true, r)
    | '+' :: r => (false, r)
    | _ => (false, cs)
  let ds := rest.takeWhile Char.isDigit
  if ds.isEmpty then none
  else some (if neg then -(digitsToNat ds : Int) else (digitsToNat ds : Int))

/-! ## Chat output model

Every `b.API.Send`/`b.API.Request` call of `internal/bot.go` is recorded
as one `Out` value, in program order.  `panicNilUser` marks the places
where the Go code dereferences a `nil` user row (a runtime panic). -/

/-- One outbound platform action. -/
inductive Out where
  | text (chatID : Int) (body : String)
  | contactKeyboard (chatID : Int) (body : String)
  | removeKeyboard (chatID : Int) (body : String)
  | confirmKeyboard (chatID : Int) (confirmData cancelData body : String)
  | photoOut (chatID : Int) (name : String) (data : List Nat)
  | videoOut (chatID : Int) (name : String) (data : List Nat)
  | audioOut (chatID : Int) (name : String) (data : List Nat)
  | documentOut (chatID : Int) (name : String) (data : List Nat)
  | callbackAck (callbackID : String)
  | panicNilUser
deriving DecidableEq, Repr

/-- Number of callback acknowledgements (`b.API.Request(tgbotapi.NewCallback ...)`)
among the recorded outputs. -/
def countAcks (outs : List Out) : Nat :=
  (outs.filter (fun o => match o with | .callbackAck _ => true | _ => false)).length

/-! ## Deletion confirmation protocol (`handleCallback`, `internal/bot.go` 232–279) -/

/-- Relevant fields of an inbound `tgbotapi.CallbackQuery`. -/
structure Callback where
  id     : String
  fromID : Int
  chatID : Int
  data   : String
deriving DecidableEq, Repr

/-- Go function `Bot.handleCallback`.  `deleteFails` injects a storage
error in the `DeleteUserFiles`/`DeleteFile` call; note that the Go error
branches `return` before the closing acknowledgement is issued. -/
def handleCallback (deleteFails : Bool) (fs : List File) (cb : Callback) :
    List File × List Out :=
  if hasLead cb.data "confirm_delete_" then
    if cb.data == "confirm_delete_all" then
      if deleteFails then
        (fs, [.text cb.chatID "Ошибка при удалении файлов."])
      else
        (DeleteUserFiles fs cb.fromID,
          [.text cb.chatID "Все доступные вам файлы успешно удалены.",
           .callbackAck cb.id])
    else
      let fileID := (goParseInt64 (trimLead cb.data "confirm_delete_")).1
      if deleteFails then
        (fs, [.text cb.chatID "Ошибка при удалении файла."])
      else
        (DeleteFile fs fileID,
          [.text cb.chatID "Файл успешно удален.", .callbackAck cb.id])
  else if hasLead cb.data "cancel_delete_" then
    if cb.data == "cancel_delete_all" then
      (fs, [.text cb.chatID "Удаление файлов отменено.", .callbackAck cb.id])
    else
      (fs, [.text cb.chatID "Удаление файла отменено.", .callbackAck cb.id])
  else
    (fs, [.callbackAck cb.id])

/-! ## Session gate (`handleMessage`, `internal/bot.go` 82–129) -/

/-- Shared-contact payload of a message. -/
structure Contact where
  phoneNumber : String
deriving DecidableEq, Repr

/-- Relevant fields of an inbound `tgbotapi.Message` for the gate. -/
structure Msg where
  fromID    : Int
  username  : String
  firstName : String
  lastName  : String
  chatID    : Int
  contact   : Option Contact
deriving DecidableEq, Repr

/-- Storage-failure oracle for the gate: whether the `GetUser` read, the
`SaveUser` write, or the `UpdateUserPhone` write errors. -/
structure GateOracle where
  getUserFails     : Bool
  saveUserFails    : Bool
  updatePhoneFails : Bool
deriving DecidableEq, Repr

/-- Whether the gate consumed the message (`return`) or fell through to
media/command/free-text processing. -/
inductive GateResult where
  | handled
  | proceed
deriving DecidableEq, Repr

/-- Session-gate portion of `Bot.handleMessage`: the payload processing
that follows the gate is abstracted as the `.proceed` result.  Faithful to
the source, a failing `GetUser` is only logged and execution continues
with a `nil` `existingUser`; a failing write is only logged and execution
continues with the store unchanged; no failure panics or exits. -/
def handleMessageGate (o : GateOracle) (admins : AdminSet) (us : List User) (m : Msg) :
    List User × List Out × GateResult :=
  let user : User :=
    { id := m.fromID, username := m.username, firstName := m.firstName,
      lastName := m.lastName, phone := "", isAdmin := cfgIsAdmin admins m.username }
  let existingUser : Option User :=
    if o.getUserFails then none else getUser us m.fromID
  match existingUser with
  | none =>
    let us' := if o.saveUserFails then us else saveUser us user
    (us', [.contactKeyboard m.chatID "Пожалуйста, поделитесь своим номером телефона."],
      .handled)
  | some eu =>
    if eu.phone == "" then
      match m.contact with
      | some c =>
        let us' := if o.updatePhoneFails then us
                   else updateUserPhone us m.fromID c.phoneNumber
        (us', [.removeKeyboard m.chatID "Спасибо! Ваш номер телефона сохранен."], .handled)
      | none =>
        (us, [.contactKeyboard m.chatID "Пожалуйста, поделитесь своим номером телефона."],
          .handled)
    else
      (us, [], .proceed)

/-! ## File ingestion pipeline (`handleFileUpload`, `internal/bot.go` 282–452) -/

/-- Size ceiling: `const maxFileSize = 100 * 1024 * 1024`. -/
def maxFileSize : Int := 100 * 1024 * 1024

/-- Transport and storage oracle for one upload: the outcome of
`b.API.GetFile` (with its `FileSize` hint), of `http.Get` (with the
fallback response's `Content-Type` header and `ContentLength`, which Go
sets to `-1` when unknown), of `io.ReadAll` (with the bytes obtained),
and of the Mongo driver inside `SaveFile`. -/
structure Transport where
  getFileOk     : Bool
  fileSizeHint  : Int
  httpOk        : Bool
  contentType   : String
  contentLength : Int
  readOk        : Bool
  body          : List Nat
  saveFails     : Bool
deriving DecidableEq, Repr

/-- Shared tail of both upload paths: build the `models.File` record
(bytes as read, zero id) and call `DB.SaveFile`, mapping each outcome to
its distinct user-facing message.  The best-effort Google-Sheets logging
that follows a successful save touches no state modelled here and is
omitted. -/
def uploadSaveStep (t : Transport) (fs : List File) (chatID fromID : Int)
    (fileName fileType : String) (now : Int) (outs : List Out) :
    List File × List Out :=
  let dbFile : File :=
    { id := 0, userID := fromID, fileName := fileName, fileType := fileType,
      fileData := t.body, createdAt := now }
  match SaveFile t.saveFails fs dbFile with
  | (fs', .error .duplicateFile) =>
    (fs', outs ++ [.text chatID "Этот файл уже был загружен ранее."])
  | (fs', .error .storage) =>
    (fs', outs ++ [.text chatID "Ошибка при сохранении файла."])
  | (fs', .ok i) =>
    (fs', outs ++ [.text chatID ("✅ Файл успешно сохранен.\nID файла: " ++ toString i
        ++ "\nИмя файла: " ++ fileName ++ "\nТип файла: " ++ fileType)])

/-- Go function `Bot.handleFileUpload`.  When `GetFile` fails the code
falls back to the deterministic URL: `http.Get`, a JSON-content-type
check, a `ContentLength` ceiling check, then read and save.  On the
primary path the ceiling is checked against `fileData.FileSize` before
download.  Neither path re-checks the size of the bytes actually read. -/
def handleFileUpload (t : Transport) (fs : List File) (chatID fromID : Int)
    (fileName fileType : String) (now : Int) : List File × List Out :=
  if !t.getFileOk then
    if !t.httpOk then
      (fs, [.text chatID "Ошибка при получении файла."])
    else if goContains t.contentType "application/json" then
      (fs, [.text chatID "Ошибка при получении файла."])
    else if t.contentLength > maxFileSize then
      (fs, [.text chatID "Извините, файл слишком большой. Максимальный размер файла - 100 МБ."])
    else
      let loading := Out.text chatID "⏳ Файл загружается в базу данных, пожалуйста, подождите..."
      if !t.readOk then
        (fs, [loading, .text chatID "Ошибка при чтении файла."])
      else
        uploadSaveStep t fs chatID fromID fileName fileType now [loading]
  else
    if t.fileSizeHint > maxFileSize then
      (fs, [.text chatID "Извините, файл слишком большой. Максимальный размер файла - 100 МБ."])
    else
      let loading := Out.text chatID "⏳ Файл загружается в базу данных, пожалуйста, подождите..."
      if !t.httpOk then
        (fs, [loading, .text chatID "Ошибка при скачивании файла."])
      else if !t.readOk then
        (fs, [loading, .text chatID "Ошибка при чтении файла."])
      else
        uploadSaveStep t fs chatID fromID fileName fileType now [loading]

/-! ## Command dispatcher (`handleCommand`, `internal/bot.go` 455–669) -/

/-- Help text sent on `/start`. -/
def helpText : String :=
  "Добро пожаловать! Я бот для хранения и управления файлами.\n\nДоступные команды:\n/list - показать список ваших файлов\n/show <id> - показать файл по его ID\n/delete <id> - удалить файл по его ID\n/deleteall - удалить все ваши файлы\n\nОграничения:\n- Максимальный размер файла: 100 МБ\n- Поддерживаемые типы файлов: документы, фото, видео, голосовые сообщения\n\nДля начала работы просто отправьте мне любой файл!"

/-- Dispatch of a stored file back to the chat, typed by the MIME
prefix of `file.FileType` (the `switch` at lines 580–593). -/
def sendFileOut (chatID : Int) (f : File) : Out :=
  if hasLead f.fileType "image/" then .photoOut chatID f.fileName f.fileData
  else if hasLead f.fileType "video/" then .videoOut chatID f.fileName f.fileData
  else if hasLead f.fileType "audio/" then .audioOut chatID f.fileName f.fileData
  else .documentOut chatID f.fileName f.fileData

/-- One line of the `/list` response: `"%d. %s (ID: %d)\n"`. -/
def listLine (p : Nat × File) : String :=
  toString (p.1 + 1) ++ ". " ++ p.2.fileName ++ " (ID: " ++ toString p.2.id ++ ")\n"

/-- Go function `Bot.handleCommand`, with `message.Command()` and
`message.CommandArguments()` passed in as `command` and `args`.  Reads
from the in-memory stores cannot fail in this model, so the Go
read-error branches do not appear; a `nil` user row dereference
(`user.IsAdmin` when `GetUser` found no row) is recorded as
`panicNilUser`.  No branch writes to either store. -/
def handleCommand (us : List User) (fs : List File) (chatID fromID : Int)
    (command args : String) : List User × List File × List Out :=
  match command with
  | "start" => (us, fs, [.text chatID helpText])
  | "list" =>
    let userFiles := getUserFiles fs fromID
    match getUser us fromID with
    | none => (us, fs, [.panicNilUser])
    | some user =>
      let files := if user.isAdmin then getAllFiles fs else userFiles
      if files.isEmpty then
        (us, fs, [.text chatID "У вас нет доступных файлов."])
      else
        (us, fs, [.text chatID (String.join (files.enum.map listLine))])
  | "show" =>
    if args == "" then
      (us, fs, [.text chatID "Пожалуйста, укажите ID файла. Например: /show 1"])
    else
      let wait := Out.text chatID "Ожидайте загрузки файла..."
      match sscanfInt args with
      | none => (us, fs, [wait, .text chatID "Неверный формат ID файла."])
      | some fileID =>
        match getFile fs fileID with
        | none => (us, fs, [wait, .text chatID "Файл не найден."])
        | some file =>
          match getUser us fromID with
          | none => (us, fs, [wait, .panicNilUser])
          | some user =>
            if !user.isAdmin && file.userID != fromID then
              (us, fs, [wait, .text chatID "У вас нет прав для доступа к этому файлу."])
            else
              (us, fs, [wait, sendFileOut chatID file])
  | "delete" =>
    if args == "" then
      (us, fs, [.text chatID "Пожалуйста, укажите ID файла. Например: /delete 1"])
    else
      match sscanfInt args with
      | none => (us, fs, [.text chatID "Неверный формат ID файла."])
      | some fileID =>
        match getFile fs fileID with
        | none => (us, fs, [.text chatID "Файл не найден."])
        | some file =>
          match getUser us fromID with
          | none => (us, fs, [.panicNilUser])
          | some user =>
            if !user.isAdmin && file.userID != fromID then
              (us, fs, [.text chatID "У вас нет прав для удаления этого файла."])
            else
              (us, fs, [.confirmKeyboard chatID
                ("confirm_delete_" ++ toString fileID)
                ("cancel_delete_" ++ toString fileID)
                ("Вы уверены, что хотите удалить файл " ++ file.fileName ++ "?")])
  | "deleteall" =>
    (us, fs, [.confirmKeyboard chatID "confirm_delete_all" "cancel_delete_all"
      "Вы уверены, что хотите удалить все ваши файлы? Это действие нельзя отменить."])
  | _ =>
    (us, fs, [.text chatID "Извините, такой команды не существует. Используйте /start для получения списка доступных команд."])

/-! ## Helper lemmas -/

/-- Folding `max` never goes below the seed. -/
lemma le_foldl_max_init (is : List Int) (a : Int) : a ≤ is.foldl max a := by
  induction is generalizing a with
  | nil => simp
  | cons b bs ih => exact le_trans (le_max_left a b) (ih (max a b))

/-- Folding `max` dominates every list element. -/
lemma mem_le_foldl_max (is : List Int) (a : Int) : ∀ b ∈ is, b ≤ is.foldl max a := by
  induction is generalizing a with
  | nil => simp
  | cons c cs ih =>
    intro b hb
    rcases List.mem_cons.mp hb with rfl | hb
    · exact le_trans (le_max_right a b) (le_foldl_max_init cs (max a b))
    · exact ih (max a c) b hb

/-- Every id in the collection is at most `lastFileId`. -/
lemma id_le_lastFileId {fs : List File} {g : File} (hg : g ∈ fs) :
    g.id ≤ lastFileId fs := by
  cases fs with
  | nil => cases hg
  | cons f rest =>
    simp only [lastFileId, List.map_cons]
    rcases List.mem_cons.mp hg with rfl | hg
    · exact le_foldl_max_init _ _
    · exact mem_le_foldl_max _ _ _ (List.mem_map.mpr ⟨g, hg, rfl⟩)

/-! ## C8 — id allocation is max-plus-one -/

/-- C8: a `SaveFile` call on a store with no file matching the new file's
dedup key succeeds, assigns the id `lastFileId fs + 1` — one more than the
maximum id currently present (every stored id is `≤ lastFileId fs`) — and
appends exactly the new record; on the empty store the assigned id is the
positive integer `1`. -/
theorem C8_saveFile_allocates_max_plus_one (fs : List File) (f : File)
    (h : hasDuplicate fs f = false) :
    SaveFile false fs f
        = (fs ++ [{ f with id := lastFileId fs + 1 }], Except.ok (lastFileId fs + 1))
    ∧ (∀ g ∈ fs, g.id ≤ lastFileId fs)
    ∧ (SaveFile false [] f).2 = Except.ok 1 ∧ (0 : Int) < 1 := by
  refine ⟨?_, fun g hg => id_le_lastFileId hg, ?_, by norm_num⟩
  · simp [SaveFile, h]
  · simp [SaveFile, hasDuplicate, lastFileId]

/-- Closed instance of `C8_saveFile_allocates_max_plus_one`. -/
theorem C8_saveFile_allocates_max_plus_one_witness :
    hasDuplicate [(⟨3, 1, "a.txt", "text/plain", [7], 0⟩ : File)]
        ⟨0, 1, "b.txt", "text/plain", [8], 5⟩ = false
    ∧ SaveFile false [(⟨3, 1, "a.txt", "text/plain", [7], 0⟩ : File)]
        ⟨0, 1, "b.txt", "text/plain", [8], 5⟩
      = ([⟨3, 1, "a.txt", "text/plain", [7], 0⟩, ⟨4, 1, "b.txt", "text/plain", [8], 5⟩],
         Except.ok 4) :=
  ⟨by decide,
    by
      have h := (C8_saveFile_allocates_max_plus_one
        [(⟨3, 1, "a.txt", "text/plain", [7], 0⟩ : File)]
        ⟨0, 1, "b.txt", "text/plain", [8], 5⟩ (by decide)).1
      simpa [lastFileId] using h⟩

/-! ## C7 — ids are not monotone over the store's lifetime -/

/-- C7 fails on the code: after saving two files (ids 1 and 2), deleting
the file with the maximal id 2, and saving a third distinct file, the id
2 is assigned again — the same id is given to two distinct Files over the
lifetime of the store. -/
theorem C7_counterexample :
    (SaveFile false [] (⟨0, 1, "a", "t", [], 0⟩ : File)).2 = Except.ok 1
    ∧ (SaveFile false [⟨1, 1, "a", "t", [], 0⟩] (⟨0, 1, "b", "t", [], 0⟩ : File)).2
        = Except.ok 2
    ∧ DeleteFile [(⟨1, 1, "a", "t", [], 0⟩ : File), ⟨2, 1, "b", "t", [], 0⟩] 2
        = [⟨1, 1, "a", "t", [], 0⟩]
    ∧ (SaveFile false [⟨1, 1, "a", "t", [], 0⟩] (⟨0, 1, "c", "t", [], 0⟩ : File)).2
        = Except.ok 2
    ∧ (⟨0, 1, "b", "t", [], 0⟩ : File) ≠ ⟨0, 1, "c", "t", [], 0⟩ :=
  ⟨rfl, rfl, by decide, rfl, by decide⟩

/-- C7 amended: each successful `SaveFile` assigns an id strictly greater
than every id **currently** in the store, so an id never collides with a
stored file; but the id of a deleted file (in particular of the deleted
maximum) can be assigned again later. -/
theorem C7_amended_id_fresh_for_current_store (fs : List File) (f : File)
    (h : hasDuplicate fs f = false) :
    ∃ i, (SaveFile false fs f).2 = Except.ok i ∧ ∀ g ∈ fs, g.id < i := by
  refine ⟨lastFileId fs + 1, by simp [SaveFile, h], fun g hg => ?_⟩
  exact lt_of_le_of_lt (id_le_lastFileId hg) (by omega)

/-- Closed instance of `C7_amended_id_fresh_for_current_store`. -/
theorem C7_amended_id_fresh_witness :
    hasDuplicate [(⟨1, 1, "a", "t", [], 0⟩ : File), ⟨2, 1, "b", "t", [], 0⟩]
        ⟨0, 1, "c", "t", [], 0⟩ = false
    ∧ ∃ i, (SaveFile false [(⟨1, 1, "a", "t", [], 0⟩ : File), ⟨2, 1, "b", "t", [], 0⟩]
        ⟨0, 1, "c", "t", [], 0⟩).2 = Except.ok i
        ∧ ∀ g ∈ [(⟨1, 1, "a", "t", [], 0⟩ : File), ⟨2, 1, "b", "t", [], 0⟩], g.id < i :=
  ⟨by decide,
    C7_amended_id_fresh_for_current_store
      [(⟨1, 1, "a", "t", [], 0⟩ : File), ⟨2, 1, "b", "t", [], 0⟩]
      ⟨0, 1, "c", "t", [], 0⟩ (by decide)⟩

/-! ## C2 — duplicate uploads are rejected without state change -/

/-- Unit-length filter forces a satisfying member, hence a true `any`. -/
lemma any_of_filter_length_one {α : Type} {l : List α} {p : α → Bool}
    (h : (l.filter p).length = 1) : l.any p = true := by
  have hne : l.filter p ≠ [] := by
    intro hnil
    rw [hnil] at h
    simp at h
  obtain ⟨a, ha⟩ := List.exists_mem_of_ne_nil _ hne
  obtain ⟨hal, hap⟩ := List.mem_filter.mp ha
  exact List.any_eq_true.mpr ⟨a, hal, hap⟩

/-- C2: when the store holds exactly one file with the dedup key
`(fromID, fileName, fileType)`, saving another file with that key returns
the `DuplicateFile` error, leaves the store unchanged (so exactly one
file with the key exists afterwards), and the upload handler answers with
the distinct duplicate-upload message. -/
theorem C2_duplicate_upload_rejected (fs : List File) (t : Transport)
    (chatID fromID : Int) (fileName fileType : String) (now : Int)
    (hkey : (fs.filter (fun g =>
        g.userID == fromID && g.fileName == fileName && g.fileType == fileType)).length = 1)
    (hget : t.getFileOk = true) (hsize : t.fileSizeHint ≤ maxFileSize)
    (hhttp : t.httpOk = true) (hread : t.readOk = true) (hsave : t.saveFails = false) :
    SaveFile t.saveFails fs ⟨0, fromID, fileName, fileType, t.body, now⟩
        = (fs, Except.error DBError.duplicateFile)
    ∧ ((SaveFile t.saveFails fs ⟨0, fromID, fileName, fileType, t.body, now⟩).1.filter
        (fun g =>
          g.userID == fromID && g.fileName == fileName && g.fileType == fileType)).length = 1
    ∧ handleFileUpload t fs chatID fromID fileName fileType now
        = (fs, [Out.text chatID "⏳ Файл загружается в базу данных, пожалуйста, подождите...",
                Out.text chatID "Этот файл уже был загружен ранее."]) := by
  have hdup : hasDuplicate fs ⟨0, fromID, fileName, fileType, t.body, now⟩ = true :=
    any_of_filter_length_one hkey
  have hmain : SaveFile t.saveFails fs ⟨0, fromID, fileName, fileType, t.body, now⟩
      = (fs, Except.error DBError.duplicateFile) := by
    rw [hsave]
    simp [SaveFile, hdup]
  refine ⟨hmain, by rw [hmain]; exact hkey, ?_⟩
  simp [handleFileUpload, hget, hhttp, hread, not_lt.mpr hsize, uploadSaveStep, hmain]

/-- Closed instance of `C2_duplicate_upload_rejected`. -/
theorem C2_duplicate_upload_rejected_witness :
    (([(⟨1, 7, "r.txt", "text/plain", [1, 2], 0⟩ : File)]).filter (fun g =>
        g.userID == 7 && g.fileName == "r.txt" && g.fileType == "text/plain")).length = 1
    ∧ handleFileUpload ⟨true, 5, true, "", 0, true, [9], false⟩
        [(⟨1, 7, "r.txt", "text/plain", [1, 2], 0⟩ : File)] 10 7 "r.txt" "text/plain" 3
      = ([(⟨1, 7, "r.txt", "text/plain", [1, 2], 0⟩ : File)],
         [Out.text 10 "⏳ Файл загружается в базу данных, пожалуйста, подождите...",
          Out.text 10 "Этот файл уже был загружен ранее."]) :=
  ⟨by decide,
    (C2_duplicate_upload_rejected [(⟨1, 7, "r.txt", "text/plain", [1, 2], 0⟩ : File)]
      ⟨true, 5, true, "", 0, true, [9], false⟩ 10 7 "r.txt" "text/plain" 3
      (by decide) rfl (by decide) rfl rfl rfl).2.2⟩

/-! ## C4 — administrator reconciliation is all-or-nothing -/

/-- The update loop is equivalent to one pointwise pass: a user's flag
ends up set iff it was set already or some intent entry matches the
username with value `true`. -/
lemma applyAdminUpdates_eq (admins : AdminSet) (us : List User) :
    applyAdminUpdates us admins
      = us.map (fun u =>
          if u.isAdmin || cfgIsAdmin admins u.username then { u with isAdmin := true }
          else u) := by
  induction admins generalizing us with
  | nil =>
    have hid : ∀ u : User,
        (if u.isAdmin || cfgIsAdmin [] u.username then { u with isAdmin := true } else u)
          = u := by
      intro u
      cases u with
      | mk i un fn ln ph ad => cases ad <;> simp [cfgIsAdmin]
    have hfun : (fun u : User =>
        if u.isAdmin || cfgIsAdmin [] u.username then { u with isAdmin := true } else u)
          = fun u => u := funext hid
    simp only [applyAdminUpdates, List.foldl_nil, hfun, List.map_id']
  | cons p rest ih =>
    have hstep : applyAdminUpdates us (p :: rest)
        = applyAdminUpdates (if p.2 then setAdminTrue us p.1 else us) rest := rfl
    rw [hstep, ih]
    cases hp : p.2 with
    | false =>
      simp only [hp, Bool.false_eq_true, if_false]
      congr 1
      funext u
      simp [cfgIsAdmin, hp]
    | true =>
      simp only [hp, if_true]
      rw [setAdminTrue, List.map_map]
      congr 1
      funext u
      simp only [Function.comp]
      cases hm : u.username == p.1 with
      | false => simp [hm, cfgIsAdmin, hp]
      | true =>
        simp [hm, cfgIsAdmin, hp]

/-- C4: `UpdateAdminStatuses` is all-or-nothing.  When no statement of
the transaction fails, every user's flag becomes exactly the intent
`cfgIsAdmin admins username` (users matching a `true` entry are set, all
others cleared) and nothing else of any row changes; when any statement
fails, the rollback leaves every row exactly as it was. -/
theorem C4_reconcile_admins_all_or_nothing (o : TxOracle) (admins : AdminSet)
    (us : List User) :
    (txFails o admins = false →
      UpdateAdminStatuses o admins us
        = (us.map (fun u => { u with isAdmin := cfgIsAdmin admins u.username }), none))
    ∧ (txFails o admins = true →
      UpdateAdminStatuses o admins us = (us, some DBError.storage)) := by
  constructor
  · intro h
    simp only [txFails, Bool.or_eq_false_iff] at h
    obtain ⟨⟨⟨h1, h2⟩, h3⟩, h4⟩ := h
    simp only [UpdateAdminStatuses, h1, h2, h3, h4, Bool.false_eq_true, if_false]
    rw [clearAdmins, applyAdminUpdates_eq, List.map_map]
    refine Prod.ext ?_ rfl
    simp only
    congr 1
    funext u
    simp only [Function.comp]
    cases hc : cfgIsAdmin admins u.username <;> simp [hc]
  · intro h
    cases h1 : o.beginFails <;> cases h2 : o.resetFails <;>
      cases h3 : admins.any (fun p => p.2 && o.updateFails p.1) <;>
      cases h4 : o.commitFails <;>
      simp_all [txFails, UpdateAdminStatuses]

/-- Closed instance of `C4_reconcile_admins_all_or_nothing`: the spec's
own example (`{"alice": true}`, alice and bob previously administrators),
plus a failing run that changes nothing. -/
theorem C4_reconcile_admins_witness :
    (txFails ⟨false, false, fun _ => false, false⟩ [("alice", true)] = false
     ∧ UpdateAdminStatuses ⟨false, false, fun _ => false, false⟩ [("alice", true)]
         [⟨1, "alice", "A", "", "1", true⟩, ⟨2, "bob", "B", "", "2", true⟩]
       = ([⟨1, "alice", "A", "", "1", true⟩, ⟨2, "bob", "B", "", "2", false⟩], none))
    ∧ (txFails ⟨true, false, fun _ => false, false⟩ [("alice", true)] = true
       ∧ UpdateAdminStatuses ⟨true, false, fun _ => false, false⟩ [("alice", true)]
           [⟨1, "alice", "A", "", "1", true⟩, ⟨2, "bob", "B", "", "2", true⟩]
         = ([⟨1, "alice", "A", "", "1", true⟩, ⟨2, "bob", "B", "", "2", true⟩],
            some DBError.storage)) := by
  constructor
  · refine ⟨by decide, ?_⟩
    have h := (C4_reconcile_admins_all_or_nothing ⟨false, false, fun _ => false, false⟩
      [("alice", true)]
      [⟨1, "alice", "A", "", "1", true⟩, ⟨2, "bob", "B", "", "2", true⟩]).1 (by decide)
    rw [h]
    decide
  · refine ⟨by decide, ?_⟩
    exact (C4_reconcile_admins_all_or_nothing ⟨true, false, fun _ => false, false⟩
      [("alice", true)]
      [⟨1, "alice", "A", "", "1", true⟩, ⟨2, "bob", "B", "", "2", true⟩]).2 (by decide)

/-! ## C3 — resolution of the deletion-confirmation tokens -/

/-- With pairwise-distinct ids, `DeleteFile` removes exactly the file
with the requested id. -/
lemma mem_DeleteFile {fs : List File} {i : Int}
    (hnd : (fs.map (fun f => f.id)).Nodup) (g : File) :
    g ∈ DeleteFile fs i ↔ (g ∈ fs ∧ g.id ≠ i) := by
  induction fs with
  | nil => simp [DeleteFile]
  | cons f rest ih =>
    simp only [List.map_cons, List.nodup_cons] at hnd
    obtain ⟨hfid, hnd'⟩ := hnd
    by_cases hf : f.id = i
    · have hcond : (f.id == i) = true := beq_iff_eq.mpr hf
      simp only [DeleteFile, hcond, if_true]
      constructor
      · intro hg
        refine ⟨List.mem_cons_of_mem _ hg, fun hgi => ?_⟩
        exact hfid (List.mem_map.mpr ⟨g, hg, by rw [hgi, hf]⟩)
      · rintro ⟨hg, hgi⟩
        rcases List.mem_cons.mp hg with rfl | hg
        · exact absurd hf hgi
        · exact hg
    · have hcond : (f.id == i) = false := beq_eq_false_iff_ne.mpr hf
      simp only [DeleteFile, hcond, Bool.false_eq_true, if_false, List.mem_cons, ih hnd']
      constructor
      · rintro (rfl | ⟨hg, hgi⟩)
        · exact ⟨Or.inl rfl, hf⟩
        · exact ⟨Or.inr hg, hgi⟩
      · rintro ⟨rfl | hg, hgi⟩
        · exact Or.inl rfl
        · exact Or.inr ⟨hg, hgi⟩

/-- Deleting an id that no stored file carries changes nothing. -/
lemma DeleteFile_eq_self {fs : List File} {i : Int}
    (h : ∀ g ∈ fs, g.id ≠ i) : DeleteFile fs i = fs := by
  induction fs with
  | nil => rfl
  | cons f rest ih =>
    have hf : (f.id == i) = false :=
      beq_eq_false_iff_ne.mpr (h f (List.mem_cons_self f rest))
    simp only [DeleteFile, hf, Bool.false_eq_true, if_false]
    rw [ih (fun g hg => h g (List.mem_cons_of_mem f hg))]

/-- C3: resolving `confirm_delete_<id>` (a confirm token that is not the
"all" token, whose suffix denotes the id) removes exactly the file with
that id and nothing else; resolving `confirm_delete_all` removes exactly
the files owned by the requester; a token that is not a confirm token —
in particular every `cancel_delete_*` token — leaves the file store
completely unchanged. -/
theorem C3_deletion_protocol (fs : List File) (cb : Callback) :
    (hasLead cb.data "confirm_delete_" = true → cb.data ≠ "confirm_delete_all" →
      (fs.map (fun f => f.id)).Nodup →
      ∀ g, g ∈ (handleCallback false fs cb).1 ↔
        (g ∈ fs ∧ g.id ≠ (goParseInt64 (trimLead cb.data "confirm_delete_")).1))
    ∧ (cb.data = "confirm_delete_all" →
      ∀ g, g ∈ (handleCallback false fs cb).1 ↔ (g ∈ fs ∧ g.userID ≠ cb.fromID))
    ∧ (hasLead cb.data "confirm_delete_" = false →
      (handleCallback false fs cb).1 = fs) := by
  refine ⟨?_, ?_, ?_⟩
  · intro h1 h2 hnd g
    have h2' : (cb.data == "confirm_delete_all") = false := beq_eq_false_iff_ne.mpr h2
    simp only [handleCallback, h1, if_true, h2', Bool.false_eq_true, if_false,
      Bool.false_eq_true]
    exact mem_DeleteFile hnd g
  · intro h g
    have hlead : hasLead "confirm_delete_all" "confirm_delete_" = true := by decide
    simp only [handleCallback, h, hlead, if_true, beq_self_eq_true]
    simp [DeleteUserFiles, List.mem_filter, bne_iff_ne]
  · intro h
    cases h2 : hasLead cb.data "cancel_delete_" <;>
      cases h3 : cb.data == "cancel_delete_all" <;>
      simp [handleCallback, h, h2, h3]

/-- Closed instance of `C3_deletion_protocol`: a two-file store, first
deleting file 7 by token, then the "all" purge for owner 1, then a
cancel token. -/
theorem C3_deletion_protocol_witness :
    (hasLead "confirm_delete_7" "confirm_delete_" = true
      ∧ (([(⟨7, 1, "a", "t", [], 0⟩ : File), ⟨8, 2, "b", "t", [], 0⟩]).map
          (fun f => f.id)).Nodup
      ∧ ((⟨8, 2, "b", "t", [], 0⟩ : File) ∈
          (handleCallback false [⟨7, 1, "a", "t", [], 0⟩, ⟨8, 2, "b", "t", [], 0⟩]
            ⟨"q1", 1, 10, "confirm_delete_7"⟩).1
        ∧ ¬ (⟨7, 1, "a", "t", [], 0⟩ : File) ∈
          (handleCallback false [⟨7, 1, "a", "t", [], 0⟩, ⟨8, 2, "b", "t", [], 0⟩]
            ⟨"q1", 1, 10, "confirm_delete_7"⟩).1))
    ∧ ((⟨8, 2, "b", "t", [], 0⟩ : File) ∈
        (handleCallback false [⟨7, 1, "a", "t", [], 0⟩, ⟨8, 2, "b", "t", [], 0⟩]
          ⟨"q2", 1, 10, "confirm_delete_all"⟩).1
      ∧ ¬ (⟨7, 1, "a", "t", [], 0⟩ : File) ∈
        (handleCallback false [⟨7, 1, "a", "t", [], 0⟩, ⟨8, 2, "b", "t", [], 0⟩]
          ⟨"q2", 1, 10, "confirm_delete_all"⟩).1)
    ∧ (hasLead "cancel_delete_7" "confirm_delete_" = false
      ∧ (handleCallback false [(⟨7, 1, "a", "t", [], 0⟩ : File), ⟨8, 2, "b", "t", [], 0⟩]
          ⟨"q3", 1, 10, "cancel_delete_7"⟩).1
        = [⟨7, 1, "a", "t", [], 0⟩, ⟨8, 2, "b", "t", [], 0⟩]) := by
  refine ⟨⟨by decide, by decide, ?_, ?_⟩, ⟨?_, ?_⟩, by decide, ?_⟩
  · exact ((C3_deletion_protocol [⟨7, 1, "a", "t", [], 0⟩, ⟨8, 2, "b", "t", [], 0⟩]
      ⟨"q1", 1, 10, "confirm_delete_7"⟩).1 (by decide) (by decide) (by decide)
      ⟨8, 2, "b", "t", [], 0⟩).mpr ⟨by decide, by decide⟩
  · intro hmem
    have h := ((C3_deletion_protocol [⟨7, 1, "a", "t", [], 0⟩, ⟨8, 2, "b", "t", [], 0⟩]
      ⟨"q1", 1, 10, "confirm_delete_7"⟩).1 (by decide) (by decide) (by decide)
      ⟨7, 1, "a", "t", [], 0⟩).mp hmem
    exact absurd (by decide : ((⟨7, 1, "a", "t", [], 0⟩ : File)).id
      = (goParseInt64 (trimLead "confirm_delete_7" "confirm_delete_")).1) h.2
  · exact ((C3_deletion_protocol [⟨7, 1, "a", "t", [], 0⟩, ⟨8, 2, "b", "t", [], 0⟩]
      ⟨"q2", 1, 10, "confirm_delete_all"⟩).2.1 rfl ⟨8, 2, "b", "t", [], 0⟩).mpr
      ⟨by decide, by decide⟩
  · intro hmem
    have h := ((C3_deletion_protocol [⟨7, 1, "a", "t", [], 0⟩, ⟨8, 2, "b", "t", [], 0⟩]
      ⟨"q2", 1, 10, "confirm_delete_all"⟩).2.1 rfl ⟨7, 1, "a", "t", [], 0⟩).mp hmem
    exact absurd (by decide : ((⟨7, 1, "a", "t", [], 0⟩ : File)).userID = (1 : Int)) h.2
  · exact (C3_deletion_protocol [⟨7, 1, "a", "t", [], 0⟩, ⟨8, 2, "b", "t", [], 0⟩]
      ⟨"q3", 1, 10, "cancel_delete_7"⟩).2.2 (by decide)

/-! ## C10 — confirm token for a missing or unparseable id -/

/-- C10: a `confirm_delete_<suffix>` token whose suffix is not `all` and
does not name any stored id — including an unparseable suffix, whose
discarded parse error makes the id `0` — deletes nothing, leaves the
store unchanged, and still reports the file-successfully-deleted notice
followed by the acknowledgement. -/
theorem C10_confirm_missing_id_reports_success (fs : List File) (cb : Callback)
    (h1 : hasLead cb.data "confirm_delete_" = true)
    (h2 : cb.data ≠ "confirm_delete_all")
    (h3 : ∀ g ∈ fs, g.id ≠ (goParseInt64 (trimLead cb.data "confirm_delete_")).1) :
    handleCallback false fs cb
        = (fs, [Out.text cb.chatID "Файл успешно удален.", Out.callbackAck cb.id])
    ∧ (∀ s, strictParseInt s = none → (goParseInt64 s).1 = 0) := by
  constructor
  · have h2' : (cb.data == "confirm_delete_all") = false := beq_eq_false_iff_ne.mpr h2
    simp only [handleCallback, h1, if_true, h2', Bool.false_eq_true, if_false]
    rw [DeleteFile_eq_self h3]
  · intro s hs
    simp [goParseInt64, hs]

/-- Closed instance of `C10_confirm_missing_id_reports_success`: the
suffix `abc` does not parse (id becomes `0`), no stored file has id `0`,
and the handler still answers with the success notice. -/
theorem C10_confirm_missing_id_witness :
    (hasLead "confirm_delete_abc" "confirm_delete_" = true
      ∧ (goParseInt64 (trimLead "confirm_delete_abc" "confirm_delete_")).1 = 0
      ∧ strictParseInt "abc" = none)
    ∧ handleCallback false [(⟨5, 2, "a", "t", [], 0⟩ : File)]
        ⟨"q", 1, 10, "confirm_delete_abc"⟩
      = ([⟨5, 2, "a", "t", [], 0⟩],
         [Out.text 10 "Файл успешно удален.", Out.callbackAck "q"]) :=
  ⟨⟨by decide, by decide, by decide⟩,
    (C10_confirm_missing_id_reports_success [(⟨5, 2, "a", "t", [], 0⟩ : File)]
      ⟨"q", 1, 10, "confirm_delete_abc"⟩ (by decide) (by decide) (by decide)).1⟩

/-! ## C9 — callback acknowledgement counting -/

/-- C9 fails on the code: when the deletion behind a confirm token fails
with a storage error, the error branch returns before the closing
`b.API.Request(tgbotapi.NewCallback ...)` line, so the pending indicator
is acknowledged zero times, not once. -/
theorem C9_counterexample :
    countAcks (handleCallback true [] ⟨"q", 1, 10, "confirm_delete_all"⟩).2 = 0
    ∧ countAcks (handleCallback true [] ⟨"q", 1, 10, "confirm_delete_5"⟩).2 = 0 := by
  decide

/-- C9 amended: the handler acknowledges the interaction exactly once on
every path on which the deletion succeeds or no deletion is attempted
(cancel and unrecognized tokens), and zero times on a confirm path whose
deletion fails with a storage error. -/
theorem C9_amended_ack_count (deleteFails : Bool) (fs : List File) (cb : Callback) :
    countAcks (handleCallback deleteFails fs cb).2
      = if deleteFails && hasLead cb.data "confirm_delete_" then 0 else 1 := by
  cases hd : deleteFails <;> cases h1 : hasLead cb.data "confirm_delete_" <;>
    cases h2 : cb.data == "confirm_delete_all" <;>
    cases h3 : hasLead cb.data "cancel_delete_" <;>
    cases h4 : cb.data == "cancel_delete_all" <;>
    simp [handleCallback, countAcks, h1, h2, h3, h4]

/-! ## C1 — access control on `/show <id>` and `/delete <id>` -/

/-- C1: a stored non-administrator user requesting `/show <id>` or
`/delete <id>` for a stored file they do not own receives exactly the
permission-denied reply; both stores are returned unchanged, no file is
sent, no deletion keyboard is issued, and nothing is deleted or
modified. -/
theorem C1_access_control (us : List User) (fs : List File) (chatID : Int)
    (args : String) (u : User) (f : File) (fileID : Int)
    (hu : getUser us u.id = some u) (hadmin : u.isAdmin = false)
    (hargs : args ≠ "") (hparse : sscanfInt args = some fileID)
    (hf : getFile fs fileID = some f) (hown : f.userID ≠ u.id) :
    handleCommand us fs chatID u.id "show" args
      = (us, fs, [Out.text chatID "Ожидайте загрузки файла...",
                  Out.text chatID "У вас нет прав для доступа к этому файлу."])
    ∧ handleCommand us fs chatID u.id "delete" args
      = (us, fs, [Out.text chatID "У вас нет прав для удаления этого файла."]) := by
  have hargs' : (args == "") = false := beq_eq_false_iff_ne.mpr hargs
  have hown' : (f.userID != u.id) = true := bne_iff_ne.mpr hown
  constructor <;>
    simp [handleCommand, hargs', hparse, hf, hu, hadmin, hown']

/-- Closed instance of `C1_access_control`: user 2 (not an
administrator) targets file 5 owned by user 1. -/
theorem C1_access_control_witness :
    (getUser [(⟨2, "eve", "E", "", "2", false⟩ : User)] 2 = some ⟨2, "eve", "E", "", "2", false⟩
      ∧ sscanfInt "5" = some 5
      ∧ getFile [(⟨5, 1, "a.txt", "text/plain", [1], 0⟩ : File)] 5
          = some ⟨5, 1, "a.txt", "text/plain", [1], 0⟩)
    ∧ handleCommand [(⟨2, "eve", "E", "", "2", false⟩ : User)]
        [(⟨5, 1, "a.txt", "text/plain", [1], 0⟩ : File)] 10 2 "show" "5"
      = ([⟨2, "eve", "E", "", "2", false⟩], [⟨5, 1, "a.txt", "text/plain", [1], 0⟩],
         [Out.text 10 "Ожидайте загрузки файла...",
          Out.text 10 "У вас нет прав для доступа к этому файлу."])
    ∧ handleCommand [(⟨2, "eve", "E", "", "2", false⟩ : User)]
        [(⟨5, 1, "a.txt", "text/plain", [1], 0⟩ : File)] 10 2 "delete" "5"
      = ([⟨2, "eve", "E", "", "2", false⟩], [⟨5, 1, "a.txt", "text/plain", [1], 0⟩],
         [Out.text 10 "У вас нет прав для удаления этого файла."]) :=
  ⟨⟨by decide, by decide, by decide⟩,
    (C1_access_control [(⟨2, "eve", "E", "", "2", false⟩ : User)]
      [(⟨5, 1, "a.txt", "text/plain", [1], 0⟩ : File)] 10 "5"
      ⟨2, "eve", "E", "", "2", false⟩ ⟨5, 1, "a.txt", "text/plain", [1], 0⟩ 5
      (by decide) (by decide) (by decide) (by decide) (by decide) (by decide)).1,
    (C1_access_control [(⟨2, "eve", "E", "", "2", false⟩ : User)]
      [(⟨5, 1, "a.txt", "text/plain", [1], 0⟩ : File)] 10 "5"
      ⟨2, "eve", "E", "", "2", false⟩ ⟨5, 1, "a.txt", "text/plain", [1], 0⟩ 5
      (by decide) (by decide) (by decide) (by decide) (by decide) (by decide)).2⟩

/-! ## C5 — storage failures during the session gate -/

/-- C5 fails on the code: when `GetUser` fails, `handleMessage` merely
logs the error and continues with a `nil` `existingUser`, so it treats
the registered sender as unseen and re-runs the `SaveUser` upsert with a
freshly built row whose phone is the empty string — a failed **read**
followed by a successful write clears the stored phone number, observably
changing the user store. -/
theorem C5_counterexample :
    (handleMessageGate ⟨true, false, false⟩ [] [(⟨1, "bob", "Bob", "B", "123", false⟩ : User)]
        ⟨1, "bob", "Bob", "B", 10, none⟩).1
      = [⟨1, "bob", "Bob", "B", "", false⟩]
    ∧ (handleMessageGate ⟨true, false, false⟩ [] [(⟨1, "bob", "Bob", "B", "123", false⟩ : User)]
        ⟨1, "bob", "Bob", "B", 10, none⟩).1
      ≠ [⟨1, "bob", "Bob", "B", "123", false⟩] := by
  decide

/-- C5 amended: when the `GetUser` read succeeds and it is the gate's
**write** (`SaveUser` or `UpdateUserPhone`) that fails, the stored user
state is exactly as if the gate had not run — in particular an existing
user's phone is untouched; the failure is only logged (in this model
every failure is an ordinary value and the handler returns normally, so
it never terminates the process).  A failed `GetUser` read, however, is
not covered: it leads to re-registration that clears the phone. -/
theorem C5_amended_failed_write_is_noop (o : GateOracle) (admins : AdminSet)
    (us : List User) (m : Msg)
    (hget : o.getUserFails = false) (hsave : o.saveUserFails = true)
    (hphone : o.updatePhoneFails = true) :
    (handleMessageGate o admins us m).1 = us := by
  simp only [handleMessageGate, hget, Bool.false_eq_true, if_false, hsave, hphone, if_true]
  cases hg : getUser us m.fromID with
  | none => simp
  | some eu =>
    cases hp : eu.phone == "" <;> cases m.contact <;> simp [hp]

/-- Closed instance of `C5_amended_failed_write_is_noop`: a failing
`UpdateUserPhone` while the awaiting-phone user shares a contact, and a
failing `SaveUser` on an unseen sender — the store is unchanged in both
runs. -/
theorem C5_amended_failed_write_witness :
    (handleMessageGate ⟨false, true, true⟩ [] [(⟨1, "bob", "Bob", "B", "", false⟩ : User)]
        ⟨1, "bob", "Bob", "B", 10, some ⟨"555"⟩⟩).1
      = [⟨1, "bob", "Bob", "B", "", false⟩]
    ∧ (handleMessageGate ⟨false, true, true⟩ [] ([] : List User)
        ⟨1, "bob", "Bob", "B", 10, none⟩).1 = [] :=
  ⟨C5_amended_failed_write_is_noop ⟨false, true, true⟩ []
      [⟨1, "bob", "Bob", "B", "", false⟩] ⟨1, "bob", "Bob", "B", 10, some ⟨"555"⟩⟩
      rfl rfl rfl,
    C5_amended_failed_write_is_noop ⟨false, true, true⟩ [] []
      ⟨1, "bob", "Bob", "B", 10, none⟩ rfl rfl rfl⟩

/-! ## C6 — the 100 MiB ceiling is only checked before download -/

/-- C6 fails on the code: on the fallback path with an absent size hint
(Go reports an unknown `Content-Length` as `-1`), a payload of
`100*1024*1024 + 1` bytes passes every check, is handed to `SaveFile`,
and is persisted — there is no second size check once the bytes are in
memory. -/
theorem C6_counterexample :
    ∃ f : File,
      (handleFileUpload
          ⟨false, 0, true, "application/octet-stream", -1, true,
            List.replicate (100 * 1024 * 1024 + 1) 0, false⟩
          [] 10 1 "big.bin" "application/octet-stream" 0).1 = [f]
      ∧ (f.fileData.length : Int) > maxFileSize := by
  have hct : goContains "application/octet-stream" "application/json" = false := by decide
  refine ⟨⟨1, 1, "big.bin", "application/octet-stream",
    List.replicate (100 * 1024 * 1024 + 1) 0, 0⟩, ?_, ?_⟩
  · simp only [handleFileUpload, hct, Bool.not_false, Bool.false_eq_true, if_false,
      Bool.not_true, uploadSaveStep, SaveFile, hasDuplicate, List.any_nil,
      Bool.false_eq_true, lastFileId, List.map_nil]
    norm_num [maxFileSize]
  · simp only [List.length_replicate, maxFileSize]
    norm_num

/-- C6 amended: the ceiling is enforced exactly once, before download,
against the size hint available on each path — `fileData.FileSize` on
the primary path and the response `Content-Length` on the fallback path —
and an over-limit hint rejects the upload with the oversize message and
no state change; no check of the actual byte count follows the read, so
the no-oversized-file-persisted guarantee holds only when the hint is
present and accurate. -/
theorem C6_amended_precheck_only (t : Transport) (fs : List File)
    (chatID fromID : Int) (fileName fileType : String) (now : Int) :
    (t.getFileOk = true → t.fileSizeHint > maxFileSize →
      handleFileUpload t fs chatID fromID fileName fileType now
        = (fs, [Out.text chatID
            "Извините, файл слишком большой. Максимальный размер файла - 100 МБ."]))
    ∧ (t.getFileOk = false → t.httpOk = true →
        goContains t.contentType "application/json" = false →
        t.contentLength > maxFileSize →
      handleFileUpload t fs chatID fromID fileName fileType now
        = (fs, [Out.text chatID
            "Извините, файл слишком большой. Максимальный размер файла - 100 МБ."])) := by
  constructor
  · intro hget hsize
    simp [handleFileUpload, hget, hsize]
  · intro hget hhttp hct hsize
    simp [handleFileUpload, hget, hhttp, hct, hsize]

/-- Closed instance of `C6_amended_precheck_only`: an oversize hint on
the primary path and an oversize `Content-Length` on the fallback path
both reject without touching the store. -/
theorem C6_amended_precheck_witness :
    handleFileUpload ⟨true, 100 * 1024 * 1024 + 1, true, "", 0, true, [], false⟩
        [] 10 1 "a.bin" "application/octet-stream" 0
      = ([], [Out.text 10
          "Извините, файл слишком большой. Максимальный размер файла - 100 МБ."])
    ∧ handleFileUpload ⟨false, 0, true, "application/octet-stream",
          100 * 1024 * 1024 + 1, true, [], false⟩
        [] 10 1 "a.bin" "application/octet-stream" 0
      = ([], [Out.text 10
          "Извините, файл слишком большой. Максимальный размер файла - 100 МБ."]) :=
  ⟨(C6_amended_precheck_only ⟨true, 100 * 1024 * 1024 + 1, true, "", 0, true, [], false⟩
      [] 10 1 "a.bin" "application/octet-stream" 0).1 rfl (by norm_num [maxFileSize]),
    (C6_amended_precheck_only ⟨false, 0, true, "application/octet-stream",
        100 * 1024 * 1024 + 1, true, [], false⟩
      [] 10 1 "a.bin" "application/octet-stream" 0).2 rfl rfl (by decide)
      (by norm_num [maxFileSize])⟩

end ERS
